import Mathlib

/-!
Verification development for the `umdatabase-tools` repository.

The repository parses two binary formats from PSP UMD disc images:
  * `isoparser.py` — an ISO 9660 reader (primary volume descriptor scan,
    path table walk, recursive directory walk), and
  * `umdb_gen_submission.py` — a PSF/SFO key-value decoder plus a PVD text
    dump helper.

Both files are shallowly embedded below.  Byte buffers are `List Nat`
(one element per byte), Python integers are `Int` or `Nat` depending on
the `struct` format character used by the source (`b`/`i`/`h` are signed,
`H`/`I` are unsigned), and every operation that can raise a Python
exception returns `Except PyErr`.  Recursion that Python performs with
unbounded loops or call recursion is given an explicit fuel parameter;
running out of fuel is the distinguished outcome `PyErr.fuelOut`.
-/

set_option maxRecDepth 8000

/-- Python exception outcomes relevant to the embedded code. -/
inductive PyErr where
  | indexError    -- sequence index out of range
  | structError   -- struct.error (short buffer or bad format)
  | valueError    -- ValueError (e.g. unknown IntEnum value)
  | assertError   -- failed assert statement
  | unicodeError  -- UnicodeDecodeError from bytes.decode
  | seekError     -- OSError from a negative absolute seek
  | pyExn (msg : String)  -- a raised Exception with a message
  | fuelOut       -- fuel exhausted (models Python non-termination / deep recursion)
deriving DecidableEq, Repr

/-- Signed interpretation of one byte, as produced by struct format `b`. -/
def sbyte (b : Nat) : Int := if b < 128 then (b : Int) else (b : Int) - 256

/-- Little-endian unsigned value of a byte list. -/
def leNat (l : List Nat) : Nat := l.foldr (fun b acc => b + 256 * acc) 0

/-- Signed 16-bit little-endian value (struct format `<h`). -/
def sInt16 (l : List Nat) : Int :=
  let u := leNat l
  if u < 2 ^ 15 then (u : Int) else (u : Int) - 2 ^ 16

/-- Signed 32-bit little-endian value (struct format `<i`). -/
def sInt32 (l : List Nat) : Int :=
  let u := leNat l
  if u < 2 ^ 31 then (u : Int) else (u : Int) - 2 ^ 32

/-- Python sequence indexing `data[idx]` on a byte string: negative indices
count from the end, anything outside the range raises `IndexError`.
(For a negative index `idx`, Python's `data[len + idx]` is the
`((-idx) - 1)`-th element of the reversed list.) -/
def pyIndexB (data : List Nat) (idx : Int) : Except PyErr Nat :=
  if 0 ≤ idx then
    match data.drop idx.toNat with
    | [] => .error .indexError
    | b :: _ => .ok b
  else
    match data.reverse.drop ((-idx).toNat - 1) with
    | [] => .error .indexError
    | b :: _ => .ok b

/-- The byte window read by `struct.unpack_from(fmt, raw, offset)` for a
format of size `size`: a negative offset counts from the end of the buffer
(the window is then `size` bytes into the last `-offset` bytes), and
`struct.error` is raised unless the whole window lies inside the buffer. -/
def unpackFrom (raw : List Nat) (offset : Int) (size : Nat) : Except PyErr (List Nat) :=
  if 0 ≤ offset then
    let w := (raw.drop offset.toNat).take size
    if w.length = size then .ok w else .error .structError
  else
    let k := (-offset).toNat
    match raw.reverse.drop (k - 1) with
    | [] => .error .structError
    | _ :: _ =>
      let w := ((raw.reverse.take k).reverse).take size
      if w.length = size then .ok w else .error .structError

/-- Python slicing `l[a:b]` for non-negative bounds: clamps, never raises. -/
def pySliceNat (l : List Nat) (a b : Nat) : List Nat := (l.drop a).take (b - a)

/-- Python slicing `l[a:b]` with possibly negative bounds. -/
def pySliceInt (l : List Nat) (a b : Int) : List Nat :=
  let n := (l.length : Int)
  let a' := if a < 0 then max 0 (n + a) else min a n
  let b' := if b < 0 then max 0 (n + b) else min b n
  (l.drop a'.toNat).take (b' - a').toNat

/-- `bytes.decode("ascii")`: every byte must be < 0x80. -/
def asciiChars (l : List Nat) : Option (List Char) :=
  if l.all (fun b => b < 128) then some (l.map Char.ofNat) else none

/-- Strict UTF-8 decoding as performed by `bytes.decode("utf8")` in CPython:
rejects overlong encodings, surrogates and code points above U+10FFFF. -/
def utf8Chars : List Nat → Option (List Char)
  | [] => some []
  | b :: rest =>
    if b < 0x80 then
      match utf8Chars rest with
      | some cs => some (Char.ofNat b :: cs)
      | none => none
    else if b < 0xC2 then none
    else if b < 0xE0 then
      match rest with
      | b2 :: rest2 =>
        if 0x80 ≤ b2 ∧ b2 < 0xC0 then
          match utf8Chars rest2 with
          | some cs => some (Char.ofNat ((b - 0xC0) * 0x40 + (b2 - 0x80)) :: cs)
          | none => none
        else none
      | [] => none
    else if b < 0xF0 then
      match rest with
      | b2 :: b3 :: rest3 =>
        if ((b = 0xE0 ∧ 0xA0 ≤ b2 ∧ b2 < 0xC0) ∨
            (b = 0xED ∧ 0x80 ≤ b2 ∧ b2 < 0xA0) ∨
            (b ≠ 0xE0 ∧ b ≠ 0xED ∧ 0x80 ≤ b2 ∧ b2 < 0xC0)) ∧
           (0x80 ≤ b3 ∧ b3 < 0xC0) then
          match utf8Chars rest3 with
          | some cs =>
            some (Char.ofNat ((b - 0xE0) * 0x1000 + (b2 - 0x80) * 0x40 + (b3 - 0x80)) :: cs)
          | none => none
        else none
      | _ => none
    else if b < 0xF5 then
      match rest with
      | b2 :: b3 :: b4 :: rest4 =>
        if ((b = 0xF0 ∧ 0x90 ≤ b2 ∧ b2 < 0xC0) ∨
            (b = 0xF4 ∧ 0x80 ≤ b2 ∧ b2 < 0x90) ∨
            (b ≠ 0xF0 ∧ b ≠ 0xF4 ∧ 0x80 ≤ b2 ∧ b2 < 0xC0)) ∧
           (0x80 ≤ b3 ∧ b3 < 0xC0) ∧ (0x80 ≤ b4 ∧ b4 < 0xC0) then
          match utf8Chars rest4 with
          | some cs =>
            some (Char.ofNat ((b - 0xF0) * 0x40000 + (b2 - 0x80) * 0x1000 +
                  (b3 - 0x80) * 0x40 + (b4 - 0x80)) :: cs)
          | none => none
        else none
      | _ => none
    else none

/-- Characters stripped by Python `str.strip()` in the ASCII range
(codepoints 0x09–0x0D, 0x1C–0x1F and 0x20 satisfy `str.isspace`). -/
def isPySpace (c : Char) : Bool :=
  (9 ≤ c.toNat && c.toNat ≤ 13) || (28 ≤ c.toNat && c.toNat ≤ 32)

/-- Python `str.strip()` restricted to ASCII strings. -/
def pyStrip (cs : List Char) : List Char :=
  ((cs.dropWhile isPySpace).reverse.dropWhile isPySpace).reverse

/-- Python `str.rstrip("\x00")`. -/
def rstripNul (cs : List Char) : List Char :=
  (cs.reverse.dropWhile (fun c => c = Char.ofNat 0)).reverse

/-! ### `isoparser.py` -/

/-- `DirEntry.__init__`: one ISO 9660 directory record, decoded with
`struct.unpack_from("<bb i4x i4x 7s bbb h2x b", raw, offset)` followed by
`struct.unpack_from(f"<{name_len}s", raw, offset + 0x21)` and an ASCII
decode of the name.  Every numeric field is SIGNED, because the source
uses the signed format characters `b`, `i` and `h`. -/
structure DirEntry where
  length : Int
  ext_length : Int
  extent : Int
  data_length : Int
  datetime : List Nat
  flags : Int
  unit_size : Int
  interleave_size : Int
  seqnum : Int
  name_len : Int
  name : String
deriving DecidableEq, Repr

/-- Decode a `DirEntry` at `offset` (may be negative, `unpack_from`
counts negative offsets from the end of the buffer).  Fails like the
Python constructor: `struct.error` when the 33-byte header or the name
would run past the buffer or when `name_len` is negative (a negative
repeat count is a bad format string), `UnicodeDecodeError` when the name
is not ASCII. -/
def dirEntryMk (raw : List Nat) (offset : Int) : Except PyErr DirEntry :=
  match unpackFrom raw offset 33 with
  | .error e => .error e
  | .ok w =>
    let nameLen := sbyte (w.getD 32 0)
    if nameLen < 0 then .error .structError
    else
      match unpackFrom raw (offset + 0x21) nameLen.toNat with
      | .error e => .error e
      | .ok nameBytes =>
        match asciiChars nameBytes with
        | none => .error .unicodeError
        | some cs =>
          .ok { length := sbyte (w.getD 0 0)
                ext_length := sbyte (w.getD 1 0)
                extent := sInt32 ((w.drop 2).take 4)
                data_length := sInt32 ((w.drop 10).take 4)
                datetime := (w.drop 18).take 7
                flags := sbyte (w.getD 25 0)
                unit_size := sbyte (w.getD 26 0)
                interleave_size := sbyte (w.getD 27 0)
                seqnum := sInt16 ((w.drop 28).take 2)
                name_len := nameLen
                name := String.mk cs }

/-- `IsoHeader.__init__` fields (only the ones the source decodes). -/
structure IsoHeader where
  volume_space_size : Int
  block_size : Int
  path_table_size : Int
  l_table_off : Int
  opt_l_table_off : Int
  root_dir : DirEntry
deriving DecidableEq, Repr

/-- `IsoHeader.__init__`: `struct.unpack_from("<i44xh2xi ", pvd, 80)`
(36 bytes of fields and padding starting at byte 80), then
`struct.unpack_from("<ii", pvd, 140)`, then `DirEntry(pvd, 0x9c)`. -/
def isoHeaderMk (pvd : List Nat) : Except PyErr IsoHeader :=
  match unpackFrom pvd 80 56 with
  | .error e => .error e
  | .ok w1 =>
    match unpackFrom pvd 140 8 with
    | .error e => .error e
    | .ok w2 =>
      match dirEntryMk pvd 0x9c with
      | .error e => .error e
      | .ok root =>
        .ok { volume_space_size := sInt32 (w1.take 4)
              block_size := sInt16 ((w1.drop 48).take 2)
              path_table_size := sInt32 ((w1.drop 52).take 4)
              l_table_off := sInt32 (w2.take 4)
              opt_l_table_off := sInt32 ((w2.drop 4).take 4)
              root_dir := root }

/-- The sector loop of `get_pvd_header`: repeatedly `read(0x800)` a sector
and look at its first byte; `0xFF` raises `Exception("Could not find PVD")`,
`0x01` decodes the sector as `IsoHeader`, anything else moves to the next
sector; an empty read makes `raw_sector[0]` raise `IndexError`.
`bytes` is the still unread remainder of the stream; `fuel` is only a
structural-recursion bound and is never exhausted when it starts at least
at `bytes.length` (each iteration consumes a non-empty sector). -/
def scanPvdGo (fuel : Nat) (bytes : List Nat) : Except PyErr IsoHeader :=
  if (bytes.take 0x800).isEmpty then .error .indexError
  else
    let b := (bytes.take 0x800).headD 0
    if b = 0xFF then .error (.pyExn "Could not find PVD")
    else if b = 0x01 then isoHeaderMk (bytes.take 0x800)
    else
      match fuel with
      | 0 => .error .fuelOut
      | fuel' + 1 => scanPvdGo fuel' (bytes.drop 0x800)

/-- `get_pvd_header(filestream)`: seek to 0x8000 and scan sectors. -/
def get_pvd_header (file : List Nat) : Except PyErr IsoHeader :=
  scanPvdGo (file.drop 0x8000).length (file.drop 0x8000)

/-- `PathTableEntry.__init__`: `struct.unpack_from("<bbih", raw, offset)`
plus the name slice `raw[offset+8 : offset+8+len]` decoded as ASCII.
`len` is SIGNED (format `b`); the name slice clamps like any Python slice. -/
structure PathTableEntry where
  len : Int
  ext_len : Int
  extent : Int
  dir_nb : Int
  name : String
deriving DecidableEq, Repr

def pathTableEntryMk (raw : List Nat) (offset : Int) : Except PyErr PathTableEntry :=
  match unpackFrom raw offset 8 with
  | .error e => .error e
  | .ok w =>
    let len := sbyte (w.getD 0 0)
    match asciiChars (pySliceInt raw (offset + 8) (offset + 8 + len)) with
    | none => .error .unicodeError
    | some cs =>
      .ok { len := len
            ext_len := sbyte (w.getD 1 0)
            extent := sInt32 ((w.drop 2).take 4)
            dir_nb := sInt16 ((w.drop 6).take 2)
            name := String.mk cs }

/-- `PathTableEntry.size`: `8 + len`, plus one pad byte when that is odd
(Python `%` on a possibly negative int is Euclidean remainder for a
positive modulus). -/
def PathTableEntry.size (e : PathTableEntry) : Int :=
  let fullsize := 8 + e.len
  if fullsize.emod 2 ≠ 0 then fullsize + 1 else fullsize

/-- The path-table loop of `parse_iso`:
`idx = 0; while idx < path_table_size: entry = PathTableEntry(data, idx); idx += entry.size()`.
Returns the final cursor value when the loop exits without an exception. -/
def pathTableLoop (data : List Nat) (tableSize : Int) : Nat → Int → Except PyErr Int
  | 0, _ => .error .fuelOut
  | fuel + 1, idx =>
    if idx < tableSize then
      match pathTableEntryMk data idx with
      | .error e => .error e
      | .ok entry => pathTableLoop data tableSize fuel (idx + entry.size)
    else .ok idx

/-- Python `x & 0x02` on a two's-complement integer: twice bit 1 of `x`. -/
def intAnd2 (x : Int) : Int := 2 * ((x.ediv 2).emod 2)

/-- The two mutually recursive computations of `walk_dirs`: the function
entry (`.dirs`: seek to `root.extent * 0x800`, read one 0x800-byte sector,
start the record loop) and the record loop itself (`.scan`: the
`while data[idx]:` loop with byte cursor `idx` and record counter `i`). -/
inductive WalkCall where
  | dirs (root : DirEntry) (out : List DirEntry)
  | scan (data : List Nat) (idx : Int) (i : Nat) (out : List DirEntry)

/-- The output accumulator carried by a `WalkCall`. -/
def WalkCall.out : WalkCall → List DirEntry
  | .dirs _ o => o
  | .scan _ _ _ o => o

/-- `walk_dirs(stream, root_dir, out)` and its inner record loop, with an
explicit fuel bound (one unit per loop iteration or recursive call; the
Python original recurses unboundedly on cyclic extents).  The loop body:
while `data[idx]` is non-zero, decode a `DirEntry` at `idx`; if it has the
directory flag and its record index `i` is at least 2, append it to `out`
and recurse into its extent; then advance `idx` by the record's (signed)
`length` field and increment `i`. -/
def walkAux (file : List Nat) : Nat → WalkCall → Except PyErr (List DirEntry)
  | 0, _ => .error .fuelOut
  | fuel + 1, .dirs root out =>
    if root.extent * 0x800 < 0 then .error .seekError
    else walkAux file fuel (.scan ((file.drop (root.extent * 0x800).toNat).take 0x800) 0 0 out)
  | fuel + 1, .scan data idx i out =>
    match pyIndexB data idx with
    | .error e => .error e
    | .ok b =>
      if b = 0 then .ok out
      else
        match dirEntryMk data idx with
        | .error e => .error e
        | .ok entry =>
          if intAnd2 entry.flags ≠ 0 ∧ 2 ≤ i then
            match walkAux file fuel (.dirs entry (out ++ [entry])) with
            | .error e => .error e
            | .ok out2 => walkAux file fuel (.scan data (idx + entry.length) (i + 1) out2)
          else walkAux file fuel (.scan data (idx + entry.length) (i + 1) out)

/-- `walk_dirs` proper. -/
def walk_dirs (file : List Nat) (fuel : Nat) (root : DirEntry) (out : List DirEntry) :
    Except PyErr (List DirEntry) :=
  walkAux file fuel (.dirs root out)

/-- The record loop of `walk_dirs` on one sector. -/
def walkScan (file : List Nat) (fuel : Nat) (data : List Nat) (idx : Int) (i : Nat)
    (out : List DirEntry) : Except PyErr (List DirEntry) :=
  walkAux file fuel (.scan data idx i out)

/-! ### `umdb_gen_submission.py` -/

/-- `SFODataFormat(IntEnum)`: UTF8_NOTERM = 0x0004, UTF8 = 0x0204, INT32 = 0x0404. -/
inductive SFODataFormat where
  | utf8noterm
  | utf8
  | int32
deriving DecidableEq, Repr

/-- `SFODataFormat(value)`: an unknown value raises `ValueError`. -/
def sfoFormatOfNat (v : Nat) : Except PyErr SFODataFormat :=
  if v = 0x0004 then .ok .utf8noterm
  else if v = 0x0204 then .ok .utf8
  else if v = 0x0404 then .ok .int32
  else .error .valueError

/-- `SFOIndexTableEntry` fields, all unsigned (`struct.unpack("<HHIII", ...)`). -/
structure SFOIdxEntry where
  key_offset : Nat
  data_fmt : SFODataFormat
  data_len : Nat
  data_max_len : Nat
  data_offset : Nat
deriving DecidableEq, Repr

/-- `SFOIndexTableEntry.__init__`: `struct.unpack("<HHIII", raw[offset : offset+0x10])`;
the slice clamps, and `unpack` (unlike `unpack_from`) demands exactly 16 bytes,
so a short slice raises `struct.error`. -/
def sfoIdxEntryMk (raw : List Nat) (offset : Nat) : Except PyErr SFOIdxEntry :=
  let chunk := (raw.drop offset).take 0x10
  if chunk.length ≠ 0x10 then .error .structError
  else
    match sfoFormatOfNat (leNat ((chunk.drop 2).take 2)) with
    | .error e => .error e
    | .ok fmt =>
      .ok { key_offset := leNat (chunk.take 2)
            data_fmt := fmt
            data_len := leNat ((chunk.drop 4).take 4)
            data_max_len := leNat ((chunk.drop 8).take 4)
            data_offset := leNat ((chunk.drop 12).take 4) }

/-- The `for idx in range(self.table_entries)` loop building `self.idx_table`:
entry `k` lives at byte offset `0x14 + 0x10 * k`. -/
def readIdxTable (raw : List Nat) : Nat → Nat → Except PyErr (List SFOIdxEntry)
  | _, 0 => .ok []
  | k, count + 1 =>
    match sfoIdxEntryMk raw (0x14 + 0x10 * k) with
    | .error e => .error e
    | .ok ent =>
      match readIdxTable raw (k + 1) count with
      | .error e => .error e
      | .ok rest => .ok (ent :: rest)

/-- A decoded SFO value: UTF-8 text or a little-endian unsigned integer. -/
inductive SFOVal where
  | str (s : String)
  | int (n : Nat)
deriving DecidableEq, Repr

/-- The key half of `SFO._read_entry`: the key's bytes run from
`key_table_start + entry.key_offset` to the next entry's key start (or to
`data_table_start` for the last index entry), are sliced (clamping), decoded
as UTF-8 and right-stripped of NUL characters. -/
def sfoEntryKey (raw : List Nat) (kts dts : Nat) (tbl : List SFOIdxEntry) (idx : Nat)
    (entry : SFOIdxEntry) : Except PyErr String :=
  let kStart := kts + entry.key_offset
  if (idx : Int) = (tbl.length : Int) - 1 then
    match utf8Chars (pySliceNat raw kStart dts) with
    | none => .error .unicodeError
    | some cs => .ok (String.mk (rstripNul cs))
  else
    match tbl.get? (idx + 1) with
    | none => .error .indexError
    | some nxt =>
      match utf8Chars (pySliceNat raw kStart (kts + nxt.key_offset)) with
      | none => .error .unicodeError
      | some cs => .ok (String.mk (rstripNul cs))

/-- The value half of `SFO._read_entry`: the value's bytes are
`raw[data_table_start + data_offset : ... + data_len]` (a clamping slice);
`INT32` entries become `int.from_bytes(..., "little")` of however many bytes
the slice holds, all other formats are UTF-8 decoded and NUL-right-stripped. -/
def sfoEntryValue (raw : List Nat) (dts : Nat) (entry : SFOIdxEntry) : Except PyErr SFOVal :=
  let dStart := dts + entry.data_offset
  let dEnd := dStart + entry.data_len
  if entry.data_fmt = SFODataFormat.int32 then
    .ok (.int (leNat (pySliceNat raw dStart dEnd)))
  else
    match utf8Chars (pySliceNat raw dStart dEnd) with
    | none => .error .unicodeError
    | some cs => .ok (.str (String.mk (rstripNul cs)))

/-- `SFO._read_entry(raw_sfo, idx)` producing the key/value pair it stores. -/
def sfoReadEntry (raw : List Nat) (kts dts : Nat) (tbl : List SFOIdxEntry) (idx : Nat) :
    Except PyErr (String × SFOVal) :=
  match tbl.get? idx with
  | none => .error .indexError
  | some entry =>
    match sfoEntryKey raw kts dts tbl idx entry with
    | .error e => .error e
    | .ok key =>
      match sfoEntryValue raw dts entry with
      | .error e => .error e
      | .ok v => .ok (key, v)

/-- Python dict assignment `d[k] = v`: replace in place if the key exists,
otherwise append (dicts preserve insertion order). -/
def dictInsert (d : List (String × SFOVal)) (k : String) (v : SFOVal) :
    List (String × SFOVal) :=
  if d.any (fun p => p.1 = k) then d.map (fun p => if p.1 = k then (k, v) else p)
  else d ++ [(k, v)]

/-- The `for i in range(len(self.idx_table)): self._read_entry(raw_sfo, i)` loop. -/
def sfoReadLoop (raw : List Nat) (kts dts : Nat) (tbl : List SFOIdxEntry) :
    Nat → Nat → List (String × SFOVal) → Except PyErr (List (String × SFOVal))
  | _, 0, acc => .ok acc
  | i, count + 1, acc =>
    match sfoReadEntry raw kts dts tbl i with
    | .error e => .error e
    | .ok (k, v) => sfoReadLoop raw kts dts tbl (i + 1) count (dictInsert acc k v)

/-- The decoded state of an `SFO` object. -/
structure SFODoc where
  version : String
  key_table_start : Nat
  data_table_start : Nat
  table_entries : Nat
  idx_table : List SFOIdxEntry
  data : List (String × SFOVal)
deriving DecidableEq, Repr

/-- `SFO.__init__(raw_sfo)`: assert the `b"\x00PSF"` signature; build the
version string from the byte at 4 and the little-endian value of
`raw_sfo[5:8] + b"\x00"` (`struct.unpack("<I", ...)` needs exactly 4 bytes);
unpack `key_table_start`, `data_table_start`, `table_entries` from
`raw_sfo[8:0x14]`; read the index table; then read every entry into `data`. -/
def SFO.init (raw : List Nat) : Except PyErr SFODoc :=
  if raw.take 4 ≠ [0x00, 0x50, 0x53, 0x46] then .error .assertError
  else
    let minorBytes := (raw.drop 5).take 3 ++ [0]
    if minorBytes.length ≠ 4 then .error .structError
    else if raw.length ≤ 4 then .error .indexError
    else
      let version := Nat.repr (raw.getD 4 0) ++ "." ++ Nat.repr (leNat minorBytes)
      let hdr := (raw.drop 8).take 12
      if hdr.length ≠ 12 then .error .structError
      else
        let kts := leNat (hdr.take 4)
        let dts := leNat ((hdr.drop 4).take 4)
        let cnt := leNat ((hdr.drop 8).take 4)
        match readIdxTable raw 0 cnt with
        | .error e => .error e
        | .ok tbl =>
          match sfoReadLoop raw kts dts tbl 0 tbl.length [] with
          | .error e => .error e
          | .ok d =>
            .ok { version := version
                  key_table_start := kts
                  data_table_start := dts
                  table_entries := cnt
                  idx_table := tbl
                  data := d }

/-- `decode_string(raw, offset, size)`:
`struct.unpack_from(f"{size}s", raw, offset)[0].decode("ascii").strip()`.
Note the Python `str.strip()` trims BOTH leading and trailing whitespace
and does not touch NUL bytes. -/
def decode_string (raw : List Nat) (offset size : Nat) : Except PyErr String :=
  if raw.length < offset + size then .error .structError
  else
    match asciiChars ((raw.drop offset).take size) with
    | none => .error .unicodeError
    | some cs => .ok (String.mk (pyStrip cs))

/-! ### Shared predicates and decidability helpers -/

/-- `Except.isOk` as a Bool (the decode did not raise). -/
def isOkB {ε α : Type} : Except ε α → Bool
  | .ok _ => true
  | .error _ => false

/-- `Except.isError` as a Bool (the decode raised some exception). -/
def isErrB {ε α : Type} : Except ε α → Bool
  | .ok _ => false
  | .error _ => true

instance exceptDecEq {ε α : Type} [DecidableEq ε] [DecidableEq α] :
    DecidableEq (Except ε α) := fun x y =>
  match x, y with
  | .ok a, .ok b =>
    if h : a = b then isTrue (by rw [h])
    else isFalse (fun he => by injection he with h2; exact h h2)
  | .error a, .error b =>
    if h : a = b then isTrue (by rw [h])
    else isFalse (fun he => by injection he with h2; exact h h2)
  | .ok _, .error _ => isFalse (fun h => nomatch h)
  | .error _, .ok _ => isFalse (fun h => nomatch h)

instance exceptOkForallDec {ε α : Type} (x : Except ε α) (P : α → Prop)
    [DecidablePred P] : Decidable (∀ a, x = Except.ok a → P a) :=
  match x with
  | .ok a =>
    if h : P a then
      isTrue (fun b hb => by injection hb with h2; exact h2 ▸ h)
    else isFalse (fun hall => h (hall a rfl))
  | .error _ => isTrue (fun a h => nomatch h)

instance exceptOkExistsDec {ε α : Type} (x : Except ε α) (P : α → Prop)
    [DecidablePred P] : Decidable (∃ a, x = Except.ok a ∧ P a) :=
  match x with
  | .ok a =>
    if h : P a then isTrue ⟨a, rfl, h⟩
    else
      isFalse (fun hex =>
        match hex with
        | ⟨b, hb, hpb⟩ => by injection hb with h2; exact h (h2 ▸ hpb))
  | .error _ =>
    isFalse (fun hex => match hex with | ⟨a, ha, _⟩ => nomatch ha)

/-- An ISO 9660 pseudo-entry: the self record (name is the single byte 0x00)
or the parent record (single byte 0x01), each with `name_length == 1`. -/
def isPseudo (e : DirEntry) : Prop :=
  e.name_len = 1 ∧ (e.name = String.mk [Char.ofNat 0] ∨ e.name = String.mk [Char.ofNat 1])

instance : DecidablePred isPseudo := fun e => by
  unfold isPseudo; infer_instance

/-- A well-formed directory extent, as the walker's skip-by-position logic
requires: whenever a record decodes at a byte offset whose guard byte
(`data[idx]`, the record's own `record_length` byte) is non-zero, the
record advances the cursor forward (`1 ≤ length`), and pseudo-entries
occur only as record 0 (offset 0) or record 1 (offset = record 0's length). -/
def ValidExtentData (data : List Nat) : Prop :=
  ∀ idx : Nat, idx ≤ data.length → data.getD idx 0 ≠ 0 →
    ∀ e, dirEntryMk data (idx : Int) = Except.ok e →
      1 ≤ e.length ∧
        (isPseudo e →
          idx = 0 ∨ ∃ e0, dirEntryMk data 0 = Except.ok e0 ∧ (idx : Int) = e0.length)

/-- Every sector the walker can read from the file is a well-formed extent
(the walker only ever reads 0x800-byte windows at multiples of 0x800). -/
def ValidFileH (file : List Nat) : Prop :=
  ∀ k : Nat, ValidExtentData ((file.drop (k * 0x800)).take 0x800)

/-- Every entry of `res` either was already in the accumulator `out` or is
not a pseudo-entry. -/
def noPseudoOut (out res : List DirEntry) : Prop :=
  ∀ e ∈ res, e ∈ out ∨ ¬ isPseudo e

/-- Every entry of `res` either was already in the accumulator `out` or has
the directory flag (bit 0x02) set. -/
def onlyDirsOut (out res : List DirEntry) : Prop :=
  ∀ e ∈ res, e ∈ out ∨ intAnd2 e.flags ≠ 0

/-- The record scan saw a zero guard byte somewhere in `data`. -/
def stopsAtZero (data : List Nat) : Prop :=
  ∃ j : Int, pyIndexB data j = Except.ok 0

/-- No sector of `bytes` starts with a PVD (0x01) or terminator (0xFF) byte. -/
def NoPvdMarkers (bytes : List Nat) : Prop :=
  ∀ (k : Nat) (b : Nat) (r : List Nat),
    (bytes.drop (0x800 * k)).take 0x800 = b :: r → b ≠ 0x01 ∧ b ≠ 0xFF

/-- Declarative description of Python `str.strip()` used by `decode_string`:
the result is the middle part of a three-way split of the decoded window in
which both outer parts are entirely whitespace and the middle part neither
starts nor ends with whitespace (so trailing NUL bytes are kept). -/
def stripSpecChars (cs : List Char) (r : Except PyErr String) : Prop :=
  ∃ lead mid trail : List Char,
    cs = lead ++ mid ++ trail ∧
    (∀ c ∈ lead, isPySpace c = true) ∧
    (∀ c ∈ trail, isPySpace c = true) ∧
    mid.head?.all (fun c => !isPySpace c) = true ∧
    mid.getLast?.all (fun c => !isPySpace c) = true ∧
    r = Except.ok (String.mk mid)

/-- The claim shape refuted for C1: the walk returns exactly one entry and it
is the `TEST.BIN` file record. -/
def singletonTestBin (r : Except PyErr (List DirEntry)) : Prop :=
  ∃ e : DirEntry, r = Except.ok [e] ∧ e.name = "TEST.BIN" ∧
    e.data_length = 1024 ∧ e.extent = 100

/-! ### Concrete fixtures -/

/-- A 34-byte self/parent pseudo-record: `record_length` 34, directory flag
set, `name_length` 1, name byte `nb` (0x00 for self, 0x01 for parent). -/
def pseudoRec (nb : Nat) : List Nat :=
  [34, 0, 0, 0, 0, 0, 0, 0, 0, 0, 0, 0, 0, 0, 0, 0, 0, 0,
   0, 0, 0, 0, 0, 0, 0, 2, 0, 0, 0, 0, 0, 0, 1, nb]

/-- Scenario A root sector: self, parent, then a `TEST.BIN` file record
(record_length 42, extent 100, data_length 1024, flags 0, name length 8),
then a zero terminator byte.  Used as a whole file whose root extent is 0. -/
def fileA : List Nat :=
  pseudoRec 0 ++ pseudoRec 1 ++
  ([42, 0, 100, 0, 0, 0, 0, 0, 0, 0, 0, 4, 0, 0, 0, 0, 0, 0,
    0, 0, 0, 0, 0, 0, 0, 0, 0, 0, 0, 0, 0, 0, 8,
    84, 69, 83, 84, 46, 66, 73, 78, 0] ++ [0])

/-- A root `DirEntry` whose extent is sector 0 (all other fields are what
`dirEntryMk fileA 0` yields for the self record). -/
def rootA : DirEntry :=
  { length := 34, ext_length := 0, extent := 0, data_length := 0,
    datetime := [0, 0, 0, 0, 0, 0, 0], flags := 2, unit_size := 0,
    interleave_size := 0, seqnum := 0, name_len := 1,
    name := String.mk [Char.ofNat 0] }

/-- A 69-byte directory extent holding only the two pseudo-records and a
zero terminator: the smallest valid extent. -/
def file69 : List Nat := pseudoRec 0 ++ pseudoRec 1 ++ [0]

instance validExtentDataDec (data : List Nat) : Decidable (ValidExtentData data) := by
  unfold ValidExtentData; infer_instance

/-- A 2048-byte directory sector completely filled by records (lengths
15 × 127, then 110, then 33) with no zero `record_length` byte: the record
chain lands exactly on the sector size. -/
def sector2048 : List Nat :=
  (List.replicate 15 (127 :: List.replicate 126 0)).flatten ++
  (110 :: List.replicate 109 0) ++ (33 :: List.replicate 32 0)

/-- A 2048-byte sector whose first record has `record_length` byte 0x80
(decoded as −128 by the signed format `b`), and a well-formed 34-byte
record at byte 1920 = Python index −128 counted from the end. -/
def sector5 : List Nat :=
  0x80 :: List.replicate 1919 0 ++ pseudoRec 0 ++ List.replicate 94 0

/-- The `DirEntry` that the walker decodes at offset 0 of `sector5`. -/
def negEntry : DirEntry :=
  { length := -128, ext_length := 0, extent := 0, data_length := 0,
    datetime := [0, 0, 0, 0, 0, 0, 0], flags := 0, unit_size := 0,
    interleave_size := 0, seqnum := 0, name_len := 0, name := "" }

/-- Scenario C path-table buffer: one entry with `name_length` 1
(`8 + 1 = 9`, padded to 10) inside a table of declared size 10. -/
def dataC : List Nat := [1, 0, 5, 0, 0, 0, 1, 0, 65, 0]

/-- The same single entry inside a table of declared size 9: the entry
boundary (10) overshoots the declared size. -/
def dataC9 : List Nat := [1, 0, 5, 0, 0, 0, 1, 0, 65]

/-- The `PathTableEntry` decoded at offset 0 of `dataC` / `dataC9`. -/
def entryC : PathTableEntry :=
  { len := 1, ext_len := 0, extent := 5, dir_nb := 1, name := "A" }

/-- Scenario B SFO buffer: signature, version bytes 01 / 01 00 00, key
table at 0x24, data table at 0x2A, one UTF8 entry, key `TITLE`, value
`GAME` (both NUL-terminated). -/
def bufB : List Nat :=
  [0x00, 0x50, 0x53, 0x46, 1, 1, 0, 0, 36, 0, 0, 0, 42, 0, 0, 0, 1, 0, 0, 0,
   0, 0, 4, 2, 5, 0, 0, 0, 8, 0, 0, 0, 0, 0, 0, 0,
   84, 73, 84, 76, 69, 0, 71, 65, 77, 69, 0]

/-- The decode of `bufB`. -/
def docB : SFODoc :=
  { version := "1.1", key_table_start := 36, data_table_start := 42,
    table_entries := 1,
    idx_table := [{ key_offset := 0, data_fmt := .utf8, data_len := 5,
                    data_max_len := 8, data_offset := 0 }],
    data := [("TITLE", .str "GAME")] }

/-- Like `bufB` but the entry's `data_offset` is 100, so its data span
`[142, 147)` lies entirely outside the 47-byte buffer. -/
def bufC3 : List Nat :=
  [0x00, 0x50, 0x53, 0x46, 1, 1, 0, 0, 36, 0, 0, 0, 42, 0, 0, 0, 1, 0, 0, 0,
   0, 0, 4, 2, 5, 0, 0, 0, 8, 0, 0, 0, 100, 0, 0, 0,
   84, 73, 84, 76, 69, 0, 71, 65, 77, 69, 0]

/-- The decode of `bufC3`: it SUCCEEDS, with the out-of-range data span
silently clamped to the empty string. -/
def docC3 : SFODoc :=
  { version := "1.1", key_table_start := 36, data_table_start := 42,
    table_entries := 1,
    idx_table := [{ key_offset := 0, data_fmt := .utf8, data_len := 5,
                    data_max_len := 8, data_offset := 100 }],
    data := [("TITLE", .str "")] }

/-- A 40-byte SFO buffer declaring `table_entries = 2`: index entry 1 would
occupy bytes [36, 52) but only 4 bytes remain. -/
def bufE : List Nat :=
  [0x00, 0x50, 0x53, 0x46, 1, 0, 0, 0, 36, 0, 0, 0, 36, 0, 0, 0, 2, 0, 0, 0,
   0, 0, 4, 0, 0, 0, 0, 0, 0, 0, 0, 0, 0, 0, 0, 0,
   0, 0, 0, 0]

/-- A UTF8-format index entry whose data span starts at its data-table
offset 0 (used with a data-table base past the end of the buffer). -/
def entryU : SFOIdxEntry :=
  { key_offset := 0, data_fmt := .utf8, data_len := 7, data_max_len := 7,
    data_offset := 0 }

/-- An INT32 index entry reading 2 bytes at data-table offset 1. -/
def entryI : SFOIdxEntry :=
  { key_offset := 0, data_fmt := .int32, data_len := 2, data_max_len := 4,
    data_offset := 1 }

/-- An INT32 index entry with `data_length` 5 (more than 4 bytes). -/
def entryI5 : SFOIdxEntry :=
  { key_offset := 0, data_fmt := .int32, data_len := 5, data_max_len := 8,
    data_offset := 0 }

/-- An INT32 index entry with `data_length` 0. -/
def entryI0 : SFOIdxEntry :=
  { key_offset := 0, data_fmt := .int32, data_len := 0, data_max_len := 4,
    data_offset := 0 }

/-- A PVD sector: type byte 0x01, volume_space_size 1, block_size 2048,
path_table_size 10, Type-L path table at block 1, and a 34-byte root
directory record at 0x9C. -/
def pvdSec : List Nat :=
  1 :: List.replicate 79 0 ++ [1, 0, 0, 0] ++ List.replicate 44 0 ++
  [0, 8, 0, 0] ++ [10, 0, 0, 0] ++ List.replicate 4 0 ++
  [1, 0, 0, 0] ++ [0, 0, 0, 0] ++ List.replicate 8 0 ++
  pseudoRec 0 ++ List.replicate 1858 0

/-- 100 all-zero sectors followed by the PVD sector: the scan must walk
through 100 sectors before it can succeed. -/
def cexPvdStream : List Nat := List.replicate 204800 0 ++ pvdSec

/-- A whole disc image for the C9 counterexample: 16 zero sectors of
system area, then `cexPvdStream` starting at byte 0x8000. -/
def cexPvdFile : List Nat := List.replicate 0x8000 0 ++ cexPvdStream

/-- Invariant carried by the walker's record loop on a valid file: the
sector data is a 0x800-window of the file at a sector boundary, the cursor
is non-negative, record 0 is scanned at cursor 0, and from record 2 onward
the cursor lies strictly beyond record 0's length (so it can be neither of
the two pseudo-entry offsets of a valid extent). -/
def ScanInv (file : List Nat) : WalkCall → Prop
  | .dirs _ _ => True
  | .scan data idx i _ =>
      (∃ k : Nat, data = (file.drop (k * 0x800)).take 0x800) ∧
      0 ≤ idx ∧
      (i = 0 → idx = 0) ∧
      (i = 1 → ∃ e0, dirEntryMk data 0 = Except.ok e0 ∧ 1 ≤ e0.length ∧ e0.length ≤ idx) ∧
      (2 ≤ i → ∃ e0, dirEntryMk data 0 = Except.ok e0 ∧ 1 ≤ e0.length ∧ e0.length < idx)

/-- The `DirEntry` decoded at offset 0 of `file69` (the self pseudo-record). -/
def pseudoSelf69 : DirEntry :=
  { length := 34, ext_length := 0, extent := 0, data_length := 0,
    datetime := [0, 0, 0, 0, 0, 0, 0], flags := 2, unit_size := 0,
    interleave_size := 0, seqnum := 0, name_len := 1,
    name := String.mk [Char.ofNat 0] }

/-! ### Walker lemmas -/

theorem walkAux_zero (file : List Nat) (c : WalkCall) :
    walkAux file 0 c = Except.error PyErr.fuelOut := rfl

theorem walk_dirs_succ (file : List Nat) (fuel : Nat) (root : DirEntry) (out : List DirEntry) :
    walk_dirs file (fuel + 1) root out =
      (if root.extent * 0x800 < 0 then Except.error PyErr.seekError
       else walkScan file fuel ((file.drop (root.extent * 0x800).toNat).take 0x800) 0 0 out) := rfl

theorem walkScan_succ (file : List Nat) (fuel : Nat) (data : List Nat) (idx : Int) (i : Nat)
    (out : List DirEntry) :
    walkScan file (fuel + 1) data idx i out =
      (match pyIndexB data idx with
       | .error e => .error e
       | .ok b =>
         if b = 0 then .ok out
         else
           match dirEntryMk data idx with
           | .error e => .error e
           | .ok entry =>
             if intAnd2 entry.flags ≠ 0 ∧ 2 ≤ i then
               match walk_dirs file fuel entry (out ++ [entry]) with
               | .error e => .error e
               | .ok out2 => walkScan file fuel data (idx + entry.length) (i + 1) out2
             else walkScan file fuel data (idx + entry.length) (i + 1) out) := rfl

/-- Every entry that the walker adds to its accumulator has the directory
flag set (the `if entry.flags & 0x02 and i >= 2` guard is the only append
site in `walk_dirs`). -/
theorem walkAux_only_dirs (file : List Nat) :
    ∀ (fuel : Nat) (c : WalkCall) (res : List DirEntry),
      walkAux file fuel c = Except.ok res → ∀ e ∈ res, e ∈ c.out ∨ intAnd2 e.flags ≠ 0 := by
  intro fuel
  induction fuel with
  | zero => intro c res h; exact absurd h (by simp [walkAux])
  | succ n ih =>
    intro c res h e he
    match c with
    | .dirs root out =>
      simp only [walkAux] at h
      split at h
      · exact absurd h (by simp)
      · exact ih _ res h e he
    | .scan data idx i out =>
      simp only [walkAux] at h
      split at h
      · exact absurd h (by simp)
      · rename_i b hb
        split at h
        · injection h with h2; subst h2; exact Or.inl he
        · split at h
          · exact absurd h (by simp)
          · rename_i entry hde
            split at h
            · rename_i hcond
              split at h
              · exact absurd h (by simp)
              · rename_i out2 hrec
                have h2 := ih _ _ h e he
                rcases h2 with h2 | h2
                · rcases ih _ _ hrec e h2 with h3 | h3
                  · rcases List.mem_append.mp h3 with h4 | h4
                    · exact Or.inl h4
                    · have : e = entry := by simpa using h4
                      subst this; exact Or.inr hcond.1
                  · exact Or.inr h3
                · exact Or.inr h2
            · exact ih _ _ h e he

theorem getD_eq_headD_drop (l : List Nat) (k : Nat) : l.getD k 0 = (l.drop k).headD 0 := by
  induction k generalizing l with
  | zero => cases l <;> rfl
  | succ n ih =>
    cases l with
    | nil => rfl
    | cons a t => simp [ih t]

theorem headD_take_succ (l : List Nat) (n : Nat) : (l.take (n + 1)).headD 0 = l.headD 0 := by
  cases l <;> rfl

theorem unpackFrom_ok_nonneg {raw : List Nat} {offset : Int} {size : Nat} {w : List Nat}
    (h0 : 0 ≤ offset) (h : unpackFrom raw offset size = Except.ok w) :
    w = (raw.drop offset.toNat).take size ∧ w.length = size := by
  simp only [unpackFrom, if_pos h0] at h
  split at h
  · injection h with h2; subst h2; simp_all
  · exact absurd h (by simp)

theorem pyIndexB_ok_nonneg {data : List Nat} {idx : Int} {b : Nat}
    (h0 : 0 ≤ idx) (h : pyIndexB data idx = Except.ok b) :
    data.getD idx.toNat 0 = b ∧ idx.toNat < data.length := by
  simp only [pyIndexB, if_pos h0] at h
  split at h
  · exact absurd h (by simp)
  · rename_i b' t hd
    injection h with h2
    subst h2
    refine ⟨by rw [getD_eq_headD_drop, hd]; rfl, ?_⟩
    by_contra hlt
    push_neg at hlt
    rw [List.drop_eq_nil_of_le hlt] at hd
    cases hd

theorem dirEntryMk_ok_nonneg {raw : List Nat} {offset : Int} {e : DirEntry}
    (h0 : 0 ≤ offset) (h : dirEntryMk raw offset = Except.ok e) :
    e.length = sbyte (raw.getD offset.toNat 0) ∧ offset.toNat + 33 ≤ raw.length := by
  simp only [dirEntryMk] at h
  split at h
  · exact absurd h (by simp)
  · rename_i w hw
    obtain ⟨hweq, hwlen⟩ := unpackFrom_ok_nonneg h0 hw
    have hbound : offset.toNat + 33 ≤ raw.length := by
      subst hweq
      simp only [List.length_take, List.length_drop] at hwlen
      omega
    split at h
    · exact absurd h (by simp)
    · split at h
      · exact absurd h (by simp)
      · split at h
        · exact absurd h (by simp)
        · injection h with h2
          subst h2
          refine ⟨?_, hbound⟩
          show sbyte (w.getD 0 0) = _
          subst hweq
          rw [getD_eq_headD_drop, getD_eq_headD_drop, List.drop_zero,
              show (33 : Nat) = 32 + 1 from rfl, headD_take_succ]

theorem walkAux_no_pseudo (file : List Nat) :
    ∀ (fuel : Nat) (c : WalkCall) (res : List DirEntry),
      ValidFileH file → ScanInv file c → walkAux file fuel c = Except.ok res →
      ∀ e ∈ res, e ∈ c.out ∨ ¬ isPseudo e := by
  intro fuel
  induction fuel with
  | zero => intro c res _ _ h; exact absurd h (by simp [walkAux])
  | succ n ih =>
    intro c res hvf hinv h e he
    match c with
    | .dirs root out =>
      simp only [walkAux] at h
      split at h
      · exact absurd h (by simp)
      · rename_i hpos
        push_neg at hpos
        refine ih _ res hvf ?_ h e he
        have hk : (root.extent * 0x800).toNat = root.extent.toNat * 0x800 := by omega
        refine ⟨⟨root.extent.toNat, by rw [hk]⟩, le_refl 0,
          fun _ => rfl, fun h1 => absurd h1 (by omega), fun h2 => absurd h2 (by omega)⟩
    | .scan data idx i out =>
      obtain ⟨⟨k, hdata⟩, hidx0, hi0, hi1, hi2⟩ := hinv
      simp only [walkAux] at h
      split at h
      · exact absurd h (by simp)
      · rename_i b hb
        split at h
        · injection h with h2; subst h2; exact Or.inl he
        · rename_i hbne
          split at h
          · exact absurd h (by simp)
          · rename_i entry hde
            have hcast : ((idx.toNat : Nat) : Int) = idx := Int.toNat_of_nonneg hidx0
            obtain ⟨hgb, hlt⟩ := pyIndexB_ok_nonneg hidx0 hb
            have hguard : data.getD idx.toNat 0 ≠ 0 := by rw [hgb]; exact hbne
            have hdecast : dirEntryMk data ((idx.toNat : Nat) : Int) = Except.ok entry := by
              rw [hcast]; exact hde
            have hval : ValidExtentData data := by rw [hdata]; exact hvf k
            obtain ⟨hlen1, hps⟩ := hval idx.toNat (le_of_lt hlt) hguard entry hdecast
            have hinv' : ∀ out' : List DirEntry,
                ScanInv file (.scan data (idx + entry.length) (i + 1) out') := by
              intro out'
              refine ⟨⟨k, hdata⟩, by omega, fun h1 => absurd h1 (by omega), ?_, ?_⟩
              · intro h1
                have hi : i = 0 := by omega
                have hidx : idx = 0 := hi0 hi
                rw [hidx] at hde
                exact ⟨entry, hde, hlen1, by omega⟩
              · intro _
                by_cases hge : 2 ≤ i
                · obtain ⟨e0, he0, hl0, hlt0⟩ := hi2 hge
                  exact ⟨e0, he0, hl0, by omega⟩
                · by_cases hone : i = 1
                  · obtain ⟨e0, he0, hl0, hle0⟩ := hi1 hone
                    exact ⟨e0, he0, hl0, by omega⟩
                  · have hi : i = 0 := by omega
                    have hidx : idx = 0 := hi0 hi
                    rw [hidx] at hde
                    exact ⟨entry, hde, hlen1, by omega⟩
            split at h
            · rename_i hcond
              have hnps : ¬ isPseudo entry := by
                intro hpse
                obtain ⟨e0, he0, hl0, hlt0⟩ := hi2 hcond.2
                rcases hps hpse with hz | ⟨e0', he0', hleq⟩
                · have hzero : idx = 0 := by omega
                  rw [hzero] at hlt0; omega
                · rw [he0] at he0'
                  injection he0' with hee
                  subst hee
                  omega
              split at h
              · exact absurd h (by simp)
              · rename_i out2 hrec
                have hrec' := ih _ _ hvf (by simp [ScanInv]) hrec
                have hcont := ih _ _ hvf (hinv' out2) h
                rcases hcont e he with h2 | h2
                · rcases hrec' e h2 with h3 | h3
                  · rcases List.mem_append.mp h3 with h4 | h4
                    · exact Or.inl h4
                    · have : e = entry := by simpa using h4
                      subst this; exact Or.inr hnps
                  · exact Or.inr h3
                · exact Or.inr h2
            · exact (ih _ _ hvf (hinv' out) h) e he

theorem walkScan_ok_stops_at_zero (file : List Nat) :
    ∀ (fuel : Nat) (data : List Nat) (idx : Int) (i : Nat) (out res : List DirEntry),
      walkScan file fuel data idx i out = Except.ok res → stopsAtZero data := by
  intro fuel
  induction fuel with
  | zero => intro data idx i out res h; exact absurd h (by simp [walkScan, walkAux])
  | succ n ih =>
    intro data idx i out res h
    rw [walkScan_succ] at h
    split at h
    · exact absurd h (by simp)
    · rename_i b hb
      split at h
      · rename_i hz; exact ⟨idx, hz ▸ hb⟩
      · split at h
        · exact absurd h (by simp)
        · rename_i entry hde
          split at h
          · split at h
            · exact absurd h (by simp)
            · exact ih _ _ _ _ _ h
          · exact ih _ _ _ _ _ h

theorem scanPvdGo_step_zero {bytes rest' : List Nat} (fuel : Nat)
    (h : bytes.take 0x800 = 0 :: rest') :
    scanPvdGo (fuel + 1) bytes = scanPvdGo fuel (bytes.drop 0x800) := by
  rw [scanPvdGo.eq_def, h]
  norm_num

theorem scanPvdGo_skip (k : Nat) :
    ∀ (fuel : Nat) (rest : List Nat),
      scanPvdGo (k + fuel) (List.replicate (k * 0x800) 0 ++ rest) = scanPvdGo fuel rest := by
  induction k with
  | zero => intro fuel rest; simp
  | succ m ih =>
    intro fuel rest
    have h1 : (m + 1) * 0x800 = 0x800 + m * 0x800 := by ring
    rw [h1, List.replicate_add, List.append_assoc,
        show m + 1 + fuel = (m + fuel) + 1 from by omega]
    have ht : ((List.replicate 0x800 (0 : Nat)) ++
        (List.replicate (m * 0x800) 0 ++ rest)).take 0x800 = List.replicate 0x800 0 :=
      List.take_left' (List.length_replicate _ _)
    have hd : ((List.replicate 0x800 (0 : Nat)) ++
        (List.replicate (m * 0x800) 0 ++ rest)).drop 0x800 =
        List.replicate (m * 0x800) 0 ++ rest :=
      List.drop_left' (List.length_replicate _ _)
    rw [scanPvdGo_step_zero (m + fuel) (by rw [ht]; rfl), hd]
    exact ih fuel rest

theorem scanPvdGo_no_markers :
    ∀ (fuel : Nat) (bytes : List Nat), bytes.length ≤ fuel → NoPvdMarkers bytes →
      scanPvdGo fuel bytes = Except.error PyErr.indexError := by
  intro fuel
  induction fuel with
  | zero =>
    intro bytes hlen _
    have hnil : bytes = [] := by
      cases bytes with
      | nil => rfl
      | cons a t => simp only [List.length_cons] at hlen; omega
    subst hnil; rfl
  | succ n ih =>
    intro bytes hlen hnm
    cases htake : bytes.take 0x800 with
    | nil => rw [scanPvdGo.eq_def, htake]; rfl
    | cons b rest' =>
      have hb := hnm 0 b rest' (by simpa using htake)
      rw [scanPvdGo.eq_def, htake]
      simp only [List.isEmpty_cons, List.headD_cons, if_neg hb.2, if_neg hb.1]
      show scanPvdGo n (bytes.drop 0x800) = _
      apply ih
      · have hne : bytes ≠ [] := by
          intro hz; rw [hz] at htake; simp at htake
        have hpos : 0 < bytes.length := List.length_pos.mpr hne
        simp only [List.length_drop]
        omega
      · intro k b' r' hk
        apply hnm (k + 1)
        rw [List.drop_drop] at hk
        rw [show 0x800 * (k + 1) = 0x800 + 0x800 * k from by ring]
        exact hk

theorem get_pvd_header_no_markers (file : List Nat)
    (h : NoPvdMarkers (file.drop 0x8000)) :
    get_pvd_header file = Except.error PyErr.indexError :=
  scanPvdGo_no_markers _ _ (le_refl _) h

theorem pathTableLoop_step (data : List Nat) (tableSize : Int) (fuel : Nat) (idx : Int)
    (e : PathTableEntry) (h1 : idx < tableSize) (h2 : pathTableEntryMk data idx = Except.ok e) :
    pathTableLoop data tableSize (fuel + 1) idx =
      pathTableLoop data tableSize fuel (idx + e.size) := by
  simp only [pathTableLoop, if_pos h1, h2]

theorem pathTableLoop_exit (data : List Nat) (tableSize : Int) (fuel : Nat) (idx : Int)
    (h : tableSize ≤ idx) : pathTableLoop data tableSize (fuel + 1) idx = Except.ok idx := by
  simp only [pathTableLoop, if_neg (not_lt.mpr h)]

theorem readIdxTable_err :
    ∀ (n k : Nat) (raw : List Nat), 1 ≤ n → raw.length < 0x14 + 0x10 * (k + n) →
      isErrB (readIdxTable raw k n) = true := by
  intro n
  induction n with
  | zero => intro k raw h _; omega
  | succ m ih =>
    intro k raw _ hlen
    by_cases hshort : raw.length < 0x14 + 0x10 * (k + 1)
    · have hcond : raw.length - (0x14 + 0x10 * k) < 0x10 := by omega
      simp [readIdxTable, sfoIdxEntryMk, hcond, isErrB]
    · cases hmk : sfoIdxEntryMk raw (0x14 + 0x10 * k) with
      | error e => simp [readIdxTable, hmk, isErrB]
      | ok ent =>
        simp only [readIdxTable, hmk]
        have hm1 : 1 ≤ m := by omega
        have hrec := ih (k + 1) raw hm1 (by omega)
        cases hr : readIdxTable raw (k + 1) m with
        | error e => simp [isErrB]
        | ok rest => rw [hr] at hrec; simp [isErrB] at hrec

theorem sfo_version_of_ok (raw : List Nat) (doc : SFODoc)
    (h : SFO.init raw = Except.ok doc) :
    doc.version = Nat.repr (raw.getD 4 0) ++ "." ++ Nat.repr (leNat ((raw.drop 5).take 3 ++ [0])) := by
  simp only [SFO.init] at h
  split at h
  · exact absurd h (by simp)
  · split at h
    · exact absurd h (by simp)
    · split at h
      · exact absurd h (by simp)
      · split at h
        · exact absurd h (by simp)
        · split at h
          · exact absurd h (by simp)
          · split at h
            · exact absurd h (by simp)
            · injection h with h2
              subst h2
              rfl

theorem sfo_init_err_of_short (raw : List Nat)
    (hsig : raw.take 4 = [0x00, 0x50, 0x53, 0x46])
    (hlen20 : 0x14 ≤ raw.length)
    (hcnt1 : 1 ≤ leNat ((((raw.drop 8).take 12).drop 8).take 4))
    (hshort : raw.length < 0x14 + 0x10 * leNat ((((raw.drop 8).take 12).drop 8).take 4)) :
    isErrB (SFO.init raw) = true := by
  simp only [SFO.init]
  rw [if_neg (by rw [hsig]; simp)]
  have h2 : ((raw.drop 5).take 3 ++ [0]).length = 4 := by
    simp only [List.length_append, List.length_take, List.length_drop, List.length_cons,
      List.length_nil]
    omega
  rw [if_neg (by rw [h2]; simp)]
  rw [if_neg (show ¬ raw.length ≤ 4 by omega)]
  have h3 : ((raw.drop 8).take 12).length = 12 := by
    simp only [List.length_take, List.length_drop]
    omega
  rw [if_neg (by rw [h3]; simp)]
  have herr := readIdxTable_err (leNat ((((raw.drop 8).take 12).drop 8).take 4)) 0 raw hcnt1
    (by omega)
  cases hr : readIdxTable raw 0 (leNat ((((raw.drop 8).take 12).drop 8).take 4)) with
  | error e => rfl
  | ok tbl => rw [hr] at herr; simp [isErrB] at herr

theorem sfoEntryValue_clamped (raw : List Nat) (dts : Nat) (entry : SFOIdxEntry)
    (h : raw.length ≤ dts + entry.data_offset) :
    sfoEntryValue raw dts entry =
      Except.ok (if entry.data_fmt = SFODataFormat.int32 then SFOVal.int 0
                 else SFOVal.str "") := by
  have hsl : pySliceNat raw (dts + entry.data_offset)
      (dts + entry.data_offset + entry.data_len) = [] := by
    simp only [pySliceNat]
    rw [List.drop_eq_nil_of_le h]
    simp
  by_cases hf : entry.data_fmt = SFODataFormat.int32
  · simp only [sfoEntryValue, hsl, if_pos hf]; rfl
  · simp only [sfoEntryValue, hsl, if_neg hf]; rfl

theorem pyStrip_spec (cs : List Char) : stripSpecChars cs (Except.ok (String.mk (pyStrip cs))) := by
  have hrest : cs.dropWhile isPySpace =
      ((cs.dropWhile isPySpace).reverse.dropWhile isPySpace).reverse ++
      ((cs.dropWhile isPySpace).reverse.takeWhile isPySpace).reverse := by
    conv_lhs => rw [← List.reverse_reverse (cs.dropWhile isPySpace),
      ← List.takeWhile_append_dropWhile (p := isPySpace)
        (l := (cs.dropWhile isPySpace).reverse)]
    rw [List.reverse_append]
  refine ⟨cs.takeWhile isPySpace,
    ((cs.dropWhile isPySpace).reverse.dropWhile isPySpace).reverse,
    ((cs.dropWhile isPySpace).reverse.takeWhile isPySpace).reverse, ?_, ?_, ?_, ?_, ?_, rfl⟩
  · have h0 : cs.takeWhile isPySpace ++ cs.dropWhile isPySpace =
        cs.takeWhile isPySpace ++
          (((cs.dropWhile isPySpace).reverse.dropWhile isPySpace).reverse ++
           ((cs.dropWhile isPySpace).reverse.takeWhile isPySpace).reverse) := by
      conv_lhs => rw [hrest]
    have h1 := (List.takeWhile_append_dropWhile isPySpace cs).symm.trans h0
    rw [← List.append_assoc] at h1
    exact h1
  · intro c hc; exact List.mem_takeWhile_imp hc
  · intro c hc; exact List.mem_takeWhile_imp (List.mem_reverse.mp hc)
  · cases hm : ((cs.dropWhile isPySpace).reverse.dropWhile isPySpace).reverse.head? with
    | none => rfl
    | some m =>
      have hr : (cs.dropWhile isPySpace).head? = some m := by
        rw [hrest, List.head?_append, hm]; rfl
      have hx := List.head?_dropWhile_not isPySpace cs
      rw [hr] at hx
      simpa using hx
  · rw [List.getLast?_eq_head?_reverse, List.reverse_reverse]
    have hx := List.head?_dropWhile_not isPySpace (cs.dropWhile isPySpace).reverse
    cases hm : ((cs.dropWhile isPySpace).reverse.dropWhile isPySpace).head? with
    | none => rfl
    | some m => rw [hm] at hx; simpa using hx

theorem validExtentData_nil : ValidExtentData [] := by decide

theorem validFileH_file69 : ValidFileH file69 := by
  intro k
  match k with
  | 0 => exact (by decide : ValidExtentData ((file69.drop (0 * 0x800)).take 0x800))
  | k + 1 =>
    have hlen : file69.length = 69 := by decide
    have hnil : file69.drop ((k + 1) * 0x800) = [] :=
      List.drop_eq_nil_of_le (by rw [hlen]; omega)
    rw [hnil]
    exact validExtentData_nil

/-- C1 (corrected): on the Scenario A image the walk returns NO entries at
all: the `TEST.BIN` leaf file record (flags bit 0x02 clear) is printed by
`walk_dirs` but never appended to the result list, so the returned
collection is empty rather than the claimed singleton. -/
theorem C1_counterexample :
    walk_dirs fileA 32 rootA [] = Except.ok [] ∧
    ¬ singletonTestBin (walk_dirs fileA 32 rootA []) := by
  have h : walk_dirs fileA 32 rootA [] = Except.ok [] := by decide
  refine ⟨h, ?_⟩
  rintro ⟨e, he, -⟩
  rw [h] at he
  injection he with h2
  cases h2

/-- C1 (amended): the walker's returned collection contains only directory
entries — every entry of the result beyond the initial accumulator has
flags bit 0x02 set — and on the Scenario A single-file image (root with the
two pseudo-entries plus `TEST.BIN`, data_length 1024, extent 100) the walk
returns the empty collection, because leaf file records are not collected. -/
theorem C1_theorem :
    walk_dirs fileA 32 rootA [] = Except.ok [] ∧
    (∀ (file : List Nat) (fuel : Nat) (root : DirEntry) (out res : List DirEntry),
      walk_dirs file fuel root out = Except.ok res → onlyDirsOut out res) := by
  refine ⟨by decide, ?_⟩
  intro file fuel root out res h
  exact fun e he => walkAux_only_dirs file fuel _ res h e he

/-- C1 witness: the general part of `C1_theorem` applied to the Scenario A
image, with its hypothesis discharged by the concrete part. -/
theorem C1_witness :
    walk_dirs fileA 32 rootA [] = Except.ok [] ∧
    onlyDirsOut ([] : List DirEntry) ([] : List DirEntry) :=
  ⟨C1_theorem.1, C1_theorem.2 fileA 32 rootA [] [] C1_theorem.1⟩

/-- C2: on a valid file (every sector of which is a well-formed directory
extent), the walker never places a self or parent pseudo-entry in its
output at any recursion depth; and every record scanned at record index
`i < 2` — the two pseudo-record positions — still advances the cursor by
its own (signed) `record_length` field. -/
theorem C2_theorem :
    (∀ (file : List Nat) (fuel : Nat) (root : DirEntry) (out res : List DirEntry),
      ValidFileH file → walk_dirs file fuel root out = Except.ok res →
      noPseudoOut out res) ∧
    (∀ (file : List Nat) (fuel : Nat) (data : List Nat) (idx : Int) (i : Nat)
       (out : List DirEntry) (b : Nat) (e : DirEntry),
      i < 2 → pyIndexB data idx = Except.ok b → b ≠ 0 →
      dirEntryMk data idx = Except.ok e →
      walkScan file (fuel + 1) data idx i out =
        walkScan file fuel data (idx + e.length) (i + 1) out) := by
  constructor
  · intro file fuel root out res hvf h
    exact fun e he => walkAux_no_pseudo file fuel _ res hvf (by simp [ScanInv]) h e he
  · intro file fuel data idx i out b e hi hb hbne hde
    rw [walkScan_succ]
    simp only [hb, hde]
    rw [if_neg hbne, if_neg (fun hc => (by omega : ¬ 2 ≤ i) hc.2)]

/-- C2 witness: both halves of `C2_theorem` applied to the 69-byte minimal
valid extent `file69` (self + parent + terminator) at record index 0. -/
theorem C2_witness :
    ValidFileH file69 ∧ noPseudoOut ([] : List DirEntry) ([] : List DirEntry) ∧
    pyIndexB file69 0 = Except.ok 34 ∧ dirEntryMk file69 0 = Except.ok pseudoSelf69 ∧
    walkScan [] 9 file69 0 0 [] =
      walkScan [] 8 file69 (0 + pseudoSelf69.length) (0 + 1) [] :=
  ⟨validFileH_file69,
   C2_theorem.1 file69 32 rootA [] [] validFileH_file69 (by decide),
   by decide, by decide,
   C2_theorem.2 [] 8 file69 0 0 [] 34 pseudoSelf69 (by omega) (by decide) (by decide)
     (by decide)⟩

theorem sector2048_length : sector2048.length = 0x800 := by
  simp only [sector2048, List.length_append, List.length_flatten, List.map_replicate,
    List.length_cons, List.length_replicate, List.sum_replicate, smul_eq_mul]

/-- C3 counterexample: the only index entry of `bufC3` has `data_offset`
100, so its data span `[142, 147)` lies entirely outside the 47-byte
buffer; the decode nevertheless SUCCEEDS, producing the empty string for
`TITLE` from the silently clamped (empty) slice — there is no `MalformedSfo`
failure. -/
theorem C3_counterexample :
    SFO.init bufC3 = Except.ok docC3 ∧ docC3.data = [("TITLE", SFOVal.str "")] :=
  ⟨by decide, by decide⟩

/-- C3 (amended): the decoder does not validate `entry_count` up front —
it fails only when the 16-byte window of an out-of-range index entry is
unpacked (a struct error, not `MalformedSfo`) — and key/data-span
arithmetic is not bounds-checked at all: a data span starting at or past
the end of the buffer is silently clamped, yielding integer 0 for INT32
entries and the empty string otherwise, instead of failing. -/
theorem C3_theorem :
    (∀ raw : List Nat,
      raw.take 4 = [0x00, 0x50, 0x53, 0x46] → 0x14 ≤ raw.length →
      1 ≤ leNat ((((raw.drop 8).take 12).drop 8).take 4) →
      raw.length < 0x14 + 0x10 * leNat ((((raw.drop 8).take 12).drop 8).take 4) →
      isErrB (SFO.init raw) = true) ∧
    (∀ (raw : List Nat) (dts : Nat) (entry : SFOIdxEntry),
      raw.length ≤ dts + entry.data_offset →
      sfoEntryValue raw dts entry =
        Except.ok (if entry.data_fmt = SFODataFormat.int32 then SFOVal.int 0
                   else SFOVal.str "")) :=
  ⟨sfo_init_err_of_short, sfoEntryValue_clamped⟩

/-- C3 witness: `C3_theorem` applied to `bufE` (which declares 2 index
entries but only holds bytes for one) and to a 3-byte buffer with a
data-table base past its end. -/
theorem C3_witness :
    bufE.take 4 = [0x00, 0x50, 0x53, 0x46] ∧ isErrB (SFO.init bufE) = true ∧
    ([1, 2, 3] : List Nat).length ≤ 5 + entryU.data_offset ∧
    sfoEntryValue [1, 2, 3] 5 entryU =
      Except.ok (if entryU.data_fmt = SFODataFormat.int32 then SFOVal.int 0
                 else SFOVal.str "") :=
  ⟨by decide, C3_theorem.1 bufE (by decide) (by decide) (by decide) (by decide),
   by decide, C3_theorem.2 [1, 2, 3] 5 entryU (by decide)⟩

/-- C4 counterexample: with `path_table_size = 9` the single entry's
padded size is 10, so the cursor jumps from 0 straight past the declared
size; the loop simply exits with cursor 10 ≠ 9 — no `PathTableMisaligned`
error exists in the code. -/
theorem C4_counterexample :
    pathTableLoop dataC9 9 32 0 = Except.ok 10 ∧ (10 : Int) ≠ 9 :=
  ⟨by decide, by decide⟩

/-- C4 (amended): the path-table loop advances the cursor by each entry's
padded size (`8 + name_length`, plus one pad byte when odd) while
`idx < path_table_size`, and exits silently as soon as the cursor meets or
exceeds `path_table_size` — landing exactly on it in the size-10
single-entry Scenario C — with no misalignment check. -/
theorem C4_theorem :
    (∀ (data : List Nat) (tableSize : Int) (fuel : Nat) (idx : Int) (e : PathTableEntry),
      idx < tableSize → pathTableEntryMk data idx = Except.ok e →
      pathTableLoop data tableSize (fuel + 1) idx =
        pathTableLoop data tableSize fuel (idx + e.size)) ∧
    (∀ (data : List Nat) (tableSize : Int) (fuel : Nat) (idx : Int),
      tableSize ≤ idx → pathTableLoop data tableSize (fuel + 1) idx = Except.ok idx) ∧
    pathTableLoop dataC 10 32 0 = Except.ok 10 ∧
    pathTableEntryMk dataC 0 = Except.ok entryC ∧ entryC.size = 10 :=
  ⟨pathTableLoop_step, pathTableLoop_exit, by decide, by decide, by decide⟩

/-- C4 witness: the step and exit laws of `C4_theorem` applied to the
Scenario C buffer. -/
theorem C4_witness :
    (0 : Int) < 10 ∧ pathTableEntryMk dataC 0 = Except.ok entryC ∧
    pathTableLoop dataC 10 6 0 = pathTableLoop dataC 10 5 (0 + entryC.size) ∧
    (10 : Int) ≤ 10 ∧ pathTableLoop dataC 10 8 10 = Except.ok 10 :=
  ⟨by decide, by decide, C4_theorem.1 dataC 10 5 0 entryC (by decide) (by decide),
   by decide, C4_theorem.2.1 dataC 10 7 10 (by decide)⟩

/-- C5: the code decodes `record_length` with the SIGNED struct format
`b`, so the byte 0x80 yields length −128: at `sector5` the first decoded
record moves the cursor from 0 to −128 (Python index −128 = offset 1920),
where the guard byte is 34 ≠ 0, the scan loop CONTINUES, decodes another
record there and finishes successfully — the cursor moved backward while
the scan went on, with no failure. -/
theorem C5_theorem :
    dirEntryMk sector5 0 = Except.ok negEntry ∧ negEntry.length = -128 ∧
    pyIndexB sector5 (0 + negEntry.length) = Except.ok 34 ∧
    walkScan [] 32 sector5 0 0 [] = Except.ok [] :=
  ⟨by decide, by decide, by decide, by decide⟩

/-- C6 counterexample: `sector2048` is a full 2048-byte sector whose
records tile it exactly, with no zero `record_length` byte; when the
cursor reaches the sector size the scan does NOT stop cleanly — the
`while data[idx]` guard raises `IndexError` at index 2048. -/
theorem C6_counterexample :
    walkScan [] 40 sector2048 0 0 [] = Except.error PyErr.indexError ∧
    sector2048.length = 0x800 :=
  ⟨by decide, sector2048_length⟩

/-- C6 (amended): the per-sector scan stops cleanly ONLY at a record whose
`record_length` byte is zero — an all-padding sector yields exactly the
incoming accumulator — and every successful scan saw such a byte; reaching
the end of the sector without one is not a stop condition (it raises an
index error, as `C6_counterexample` shows). -/
theorem C6_theorem :
    (∀ (file : List Nat) (fuel : Nat) (data : List Nat) (idx : Int) (i : Nat)
       (out : List DirEntry),
      pyIndexB data idx = Except.ok 0 →
      walkScan file (fuel + 1) data idx i out = Except.ok out) ∧
    (∀ (file : List Nat) (fuel : Nat) (out : List DirEntry),
      walkScan file (fuel + 1) (List.replicate 0x800 0) 0 0 out = Except.ok out) ∧
    (∀ (file : List Nat) (fuel : Nat) (data : List Nat) (idx : Int) (i : Nat)
       (out res : List DirEntry),
      walkScan file fuel data idx i out = Except.ok res → stopsAtZero data) := by
  have hstop : ∀ (file : List Nat) (fuel : Nat) (data : List Nat) (idx : Int) (i : Nat)
      (out : List DirEntry), pyIndexB data idx = Except.ok 0 →
      walkScan file (fuel + 1) data idx i out = Except.ok out := by
    intro file fuel data idx i out hb
    rw [walkScan_succ]
    simp only [hb, if_true]
  refine ⟨hstop, ?_, fun file fuel data idx i out res h =>
    walkScan_ok_stops_at_zero file fuel _ _ _ _ _ h⟩
  intro file fuel out
  exact hstop file fuel _ 0 0 out (by decide)

/-- C6 witness: the zero-byte stop law and the stop characterisation of
`C6_theorem` applied to a one-byte padding sector. -/
theorem C6_witness :
    pyIndexB [0] 0 = Except.ok 0 ∧ walkScan [] 5 [0] 0 0 [] = Except.ok [] ∧
    stopsAtZero [0] :=
  ⟨by decide, C6_theorem.1 [] 4 [0] 0 0 [] (by decide),
   C6_theorem.2.2 [] 5 [0] 0 0 [] [] (C6_theorem.1 [] 4 [0] 0 0 [] (by decide))⟩

/-- C7 counterexample: `decode_string` uses Python `str.strip()`, which
does NOT remove NUL bytes and DOES remove leading whitespace: the window
`"AB\x00"` comes back with its trailing NUL intact (not `"AB"` as the
claim requires), and the window `" AB"` loses its leading space (leading
bytes are not preserved). -/
theorem C7_counterexample :
    decode_string [65, 66, 0] 0 3 =
      Except.ok (String.mk [Char.ofNat 65, Char.ofNat 66, Char.ofNat 0]) ∧
    String.mk [Char.ofNat 65, Char.ofNat 66, Char.ofNat 0] ≠ "AB" ∧
    decode_string [32, 65, 66] 0 3 = Except.ok "AB" ∧
    "AB" ≠ String.mk [Char.ofNat 32, Char.ofNat 65, Char.ofNat 66] :=
  ⟨by decide, by decide, by decide, by decide⟩

/-- C7 (amended): for every in-bounds, all-ASCII window, `decode_string`
returns the window split as whitespace prefix ++ core ++ whitespace suffix
with exactly the two whitespace ends removed (Python `str.strip()`
semantics): both removed parts are entirely whitespace, the retained core
neither starts nor ends with whitespace, and in particular trailing NUL
bytes — which are not whitespace — are retained. -/
theorem C7_theorem :
    ∀ (raw : List Nat) (offset size : Nat) (cs : List Char),
      offset + size ≤ raw.length →
      asciiChars ((raw.drop offset).take size) = some cs →
      stripSpecChars cs (decode_string raw offset size) := by
  intro raw offset size cs hb ha
  have hd : decode_string raw offset size = Except.ok (String.mk (pyStrip cs)) := by
    simp only [decode_string, if_neg (by omega : ¬ raw.length < offset + size), ha]
  rw [hd]
  exact pyStrip_spec cs

/-- C7 witness: `C7_theorem` applied to the 3-byte window `" A\x00"`. -/
theorem C7_witness :
    0 + 3 ≤ ([32, 65, 0] : List Nat).length ∧
    asciiChars ((([32, 65, 0] : List Nat).drop 0).take 3) =
      some [Char.ofNat 32, Char.ofNat 65, Char.ofNat 0] ∧
    stripSpecChars [Char.ofNat 32, Char.ofNat 65, Char.ofNat 0]
      (decode_string [32, 65, 0] 0 3) :=
  ⟨by decide, by decide, C7_theorem [32, 65, 0] 0 3 _ (by decide) (by decide)⟩

/-- C8: every successful SFO decode reports `version` as the decimal major
byte at offset 4, a dot, and the decimal little-endian 24-bit value of the
three bytes at offsets 5–7; and the Scenario B buffer (version bytes
`01 / 01 00 00`, one UTF-8 entry `TITLE` → `GAME`) decodes to version
`"1.1"` with fields `{"TITLE": "GAME"}`. -/
theorem C8_theorem :
    (∀ (raw : List Nat) (doc : SFODoc), SFO.init raw = Except.ok doc →
      doc.version = Nat.repr (raw.getD 4 0) ++ "." ++
        Nat.repr (leNat ((raw.drop 5).take 3 ++ [0]))) ∧
    SFO.init bufB = Except.ok docB ∧ docB.version = "1.1" ∧
    docB.data = [("TITLE", SFOVal.str "GAME")] :=
  ⟨sfo_version_of_ok, by decide, by decide, by decide⟩

/-- C8 witness: the version law of `C8_theorem` applied to the Scenario B
buffer. -/
theorem C8_witness :
    SFO.init bufB = Except.ok docB ∧
    docB.version = Nat.repr (bufB.getD 4 0) ++ "." ++
      Nat.repr (leNat ((bufB.drop 5).take 3 ++ [0])) :=
  ⟨C8_theorem.2.1, C8_theorem.1 bufB docB C8_theorem.2.1⟩

theorem pvdSec_length : pvdSec.length = 0x800 := by
  simp only [pvdSec, pseudoRec, List.length_append, List.length_cons, List.length_replicate,
    List.length_nil]

/-- C9 counterexample: a disc image whose PVD sits 100 sectors after the
start of the descriptor area is still decoded successfully — the scan
inspects 101 sectors, far beyond the claimed ~32-sector bound, instead of
failing on input with no 0x01/0xFF marker within that bound. -/
theorem C9_counterexample : isOkB (get_pvd_header cexPvdFile) = true := by
  have hdrop : cexPvdFile.drop 0x8000 = cexPvdStream := by
    rw [cexPvdFile, List.drop_left' (List.length_replicate _ _)]
  have hlen : cexPvdStream.length = 206848 := by
    rw [cexPvdStream]
    rw [List.length_append, List.length_replicate, pvdSec_length]
  rw [get_pvd_header, hdrop, hlen]
  rw [show (206848 : Nat) = 100 + 206748 from rfl]
  rw [cexPvdStream, show (204800 : Nat) = 100 * 0x800 from rfl, scanPvdGo_skip]
  decide

/-- C9 (amended): the descriptor scan has NO fixed sector bound: it keeps
reading sectors until a 0x01 or 0xFF type byte appears or the source runs
out; on a source with no such marker anywhere it fails only upon
exhausting the stream, with the `IndexError` from indexing an empty read. -/
theorem C9_theorem :
    ∀ file : List Nat, NoPvdMarkers (file.drop 0x8000) →
      get_pvd_header file = Except.error PyErr.indexError :=
  get_pvd_header_no_markers

/-- C9 witness: `C9_theorem` applied to the empty source. -/
theorem C9_witness :
    NoPvdMarkers (List.drop 0x8000 ([] : List Nat)) ∧
    get_pvd_header [] = Except.error PyErr.indexError := by
  have hnm : NoPvdMarkers (List.drop 0x8000 ([] : List Nat)) := by
    intro k b r h
    simp at h
  exact ⟨hnm, C9_theorem [] hnm⟩

/-- C10: an INT32 SFO entry decodes as the little-endian unsigned integer
of exactly `data_length` bytes sliced from the data table (the slice has
length `data_length` whenever it is in bounds), NOT a fixed 4 bytes: a
`data_length` of 0 gives the integer 0, and a 5-byte entry of 0xFF bytes
gives 2^40 − 1 ≥ 2^32. -/
theorem C10_theorem :
    (∀ (raw : List Nat) (dts : Nat) (entry : SFOIdxEntry),
      entry.data_fmt = SFODataFormat.int32 →
      sfoEntryValue raw dts entry = Except.ok (SFOVal.int (leNat (pySliceNat raw
        (dts + entry.data_offset) (dts + entry.data_offset + entry.data_len))))) ∧
    (∀ (raw : List Nat) (dts : Nat) (entry : SFOIdxEntry),
      dts + entry.data_offset + entry.data_len ≤ raw.length →
      (pySliceNat raw (dts + entry.data_offset)
        (dts + entry.data_offset + entry.data_len)).length = entry.data_len) ∧
    (∀ (raw : List Nat) (dts : Nat) (entry : SFOIdxEntry),
      entry.data_fmt = SFODataFormat.int32 → entry.data_len = 0 →
      sfoEntryValue raw dts entry = Except.ok (SFOVal.int 0)) ∧
    sfoEntryValue [255, 255, 255, 255, 255] 0 entryI5 =
      Except.ok (SFOVal.int (2 ^ 40 - 1)) ∧
    2 ^ 32 ≤ 2 ^ 40 - 1 := by
  refine ⟨?_, ?_, ?_, by decide, by norm_num⟩
  · intro raw dts entry hf
    simp only [sfoEntryValue, if_pos hf]
  · intro raw dts entry hb
    simp only [pySliceNat, List.length_take, List.length_drop]
    omega
  · intro raw dts entry hf h0
    have hz : dts + entry.data_offset + 0 - (dts + entry.data_offset) = 0 := by omega
    simp only [sfoEntryValue, if_pos hf, h0, pySliceNat, hz, List.take_zero]
    rfl

/-- C10 witness: the three universal laws of `C10_theorem` applied to
small concrete buffers and entries. -/
theorem C10_witness :
    entryI.data_fmt = SFODataFormat.int32 ∧
    sfoEntryValue [7, 8, 9, 10] 0 entryI =
      Except.ok (SFOVal.int (leNat (pySliceNat [7, 8, 9, 10]
        (0 + entryI.data_offset) (0 + entryI.data_offset + entryI.data_len)))) ∧
    0 + entryI.data_offset + entryI.data_len ≤ ([7, 8, 9, 10] : List Nat).length ∧
    (pySliceNat [7, 8, 9, 10] (0 + entryI.data_offset)
      (0 + entryI.data_offset + entryI.data_len)).length = entryI.data_len ∧
    entryI0.data_fmt = SFODataFormat.int32 ∧ entryI0.data_len = 0 ∧
    sfoEntryValue [7, 8, 9] 3 entryI0 = Except.ok (SFOVal.int 0) :=
  ⟨by decide, C10_theorem.1 [7, 8, 9, 10] 0 entryI (by decide),
   by decide, C10_theorem.2.1 [7, 8, 9, 10] 0 entryI (by decide),
   by decide, by decide, C10_theorem.2.2.1 [7, 8, 9] 3 entryI0 (by decide) (by decide)⟩
